/-
Verification of the occupancy/allocation core of the Hostel Hub repository
(frontend `HostelContext` in src/unnamed/part_001, API client and data
transforms in src/frontend-web/src/lib/api.ts) against its natural-language
specification.

Shallow embedding conventions:
  * JS numbers used for money are modelled as `Rat` (the amounts involved are
    decimals; the claims under check do not hinge on binary floating point
    rounding).
  * JS `undefined`/missing object fields are modelled as `Option`; the fact
    that `JSON.stringify` drops keys whose value is `undefined` is modelled by
    the payload field being `none` (absent).
  * Enumerated string fields (`status`, `frequency`, ...) are modelled as
    inductive types holding exactly the values the transform layer produces.
-/
import Mathlib

namespace Hostel

/-- Bed status enumeration: `'AVAILABLE' | 'OCCUPIED'` strings in the source. -/
inductive BedStatus where
  | AVAILABLE
  | OCCUPIED
deriving DecidableEq, Repr

/-- Backend billing frequency enumeration `'MONTHLY' | 'YEARLY' | 'EXCEPTION'`. -/
inductive Frequency where
  | MONTHLY
  | YEARLY
  | EXCEPTION
deriving DecidableEq, Repr

/-- Frontend billing frequency `'monthly' | 'yearly' | 'custom'`. -/
inductive FrontFrequency where
  | monthly
  | yearly
  | custom
deriving DecidableEq, Repr

/-! ### Occupancy aggregation (`getOccupancyStats`, part_001 lines 245-261 and 607-623)

The source walks `properties → floors → rooms → beds` with two mutable
counters `total` and `occupied`, then returns
`{ total, occupied, available: total - occupied }`. -/

/-- A bed as seen by `getOccupancyStats`: only `isOccupied` is read. -/
structure OBed where
  isOccupied : Bool
deriving DecidableEq, Repr

/-- A room as walked by `getOccupancyStats`. -/
structure ORoom where
  beds : List OBed
deriving DecidableEq, Repr

/-- A floor as walked by `getOccupancyStats`. -/
structure OFloor where
  rooms : List ORoom
deriving DecidableEq, Repr

/-- A property as walked by `getOccupancyStats`. -/
structure OProperty where
  floors : List OFloor
deriving DecidableEq, Repr

/-- Result record `{ total, occupied, available }`. -/
structure OccStats where
  total : Nat
  occupied : Nat
  available : Nat
deriving DecidableEq, Repr

/-- The body of the innermost `forEach`: `total++; if (bed.isOccupied) occupied++`.
The accumulator is the pair `(total, occupied)`. -/
def statsStep (acc : Nat × Nat) (bed : OBed) : Nat × Nat :=
  (acc.1 + 1, if bed.isOccupied then acc.2 + 1 else acc.2)

/-- Function `getOccupancyStats` from part_001 lines 607-623 (identical to lines 245-261):
nested `forEach` over properties/floors/rooms/beds accumulating `total` and
`occupied`, returning `available = total - occupied`. -/
def getOccupancyStats (properties : List OProperty) : OccStats :=
  let acc :=
    properties.foldl
      (fun a p =>
        p.floors.foldl
          (fun a f =>
            f.rooms.foldl (fun a r => r.beds.foldl statsStep a) a)
          a)
      (0, 0)
  { total := acc.1, occupied := acc.2, available := acc.1 - acc.2 }

/-- Number of occupied beds in a bed list. -/
def bedsOcc (beds : List OBed) : Nat := (beds.filter (fun b => b.isOccupied)).length

/-- Total number of beds across all rooms of all floors of all properties. -/
def totalBedCount (properties : List OProperty) : Nat :=
  (properties.map (fun p =>
    (p.floors.map (fun f => (f.rooms.map (fun r => r.beds.length)).sum)).sum)).sum

/-- Occupied bed count across the whole graph. -/
def totalOccCount (properties : List OProperty) : Nat :=
  (properties.map (fun p =>
    (p.floors.map (fun f => (f.rooms.map (fun r => bedsOcc r.beds)).sum)).sum)).sum

theorem foldl_statsStep_beds (beds : List OBed) (a : Nat × Nat) :
    beds.foldl statsStep a = (a.1 + beds.length, a.2 + bedsOcc beds) := by
  induction beds generalizing a with
  | nil => simp [bedsOcc]
  | cons b bs ih =>
      simp only [List.foldl_cons, ih, statsStep, bedsOcc, List.filter_cons]
      cases hb : b.isOccupied <;> simp [bedsOcc] <;> omega

theorem foldl_statsStep_rooms (rooms : List ORoom) (a : Nat × Nat) :
    rooms.foldl (fun a r => r.beds.foldl statsStep a) a =
      (a.1 + (rooms.map (fun r => r.beds.length)).sum,
       a.2 + (rooms.map (fun r => bedsOcc r.beds)).sum) := by
  induction rooms generalizing a with
  | nil => simp
  | cons r rs ih =>
      rw [List.foldl_cons, ih, foldl_statsStep_beds]
      simp only [List.map_cons, List.sum_cons, Prod.mk.injEq]
      constructor <;> omega

theorem foldl_statsStep_floors (floors : List OFloor) (a : Nat × Nat) :
    floors.foldl (fun a f => f.rooms.foldl (fun a r => r.beds.foldl statsStep a) a) a =
      (a.1 + (floors.map (fun f => (f.rooms.map (fun r => r.beds.length)).sum)).sum,
       a.2 + (floors.map (fun f => (f.rooms.map (fun r => bedsOcc r.beds)).sum)).sum) := by
  induction floors generalizing a with
  | nil => simp
  | cons f fs ih =>
      rw [List.foldl_cons, ih, foldl_statsStep_rooms]
      simp only [List.map_cons, List.sum_cons, Prod.mk.injEq]
      constructor <;> omega

theorem foldl_statsStep_props (properties : List OProperty) (a : Nat × Nat) :
    properties.foldl
      (fun a p =>
        p.floors.foldl
          (fun a f => f.rooms.foldl (fun a r => r.beds.foldl statsStep a) a) a) a =
      (a.1 + totalBedCount properties, a.2 + totalOccCount properties) := by
  induction properties generalizing a with
  | nil => simp [totalBedCount, totalOccCount]
  | cons p ps ih =>
      rw [List.foldl_cons, ih, foldl_statsStep_floors]
      simp only [totalBedCount, totalOccCount, List.map_cons, List.sum_cons, Prod.mk.injEq]
      constructor <;> omega

theorem bedsOcc_le_length (beds : List OBed) : bedsOcc beds ≤ beds.length :=
  List.length_filter_le _ _

theorem totalOccCount_le_totalBedCount (properties : List OProperty) :
    totalOccCount properties ≤ totalBedCount properties := by
  induction properties with
  | nil => simp [totalBedCount, totalOccCount]
  | cons p ps ih =>
      simp only [totalBedCount, totalOccCount, List.map_cons, List.sum_cons] at *
      have hp : (p.floors.map (fun f => (f.rooms.map (fun r => bedsOcc r.beds)).sum)).sum ≤
          (p.floors.map (fun f => (f.rooms.map (fun r => r.beds.length)).sum)).sum := by
        induction p.floors with
        | nil => simp
        | cons f fs ihf =>
            simp only [List.map_cons, List.sum_cons]
            have hf : (f.rooms.map (fun r => bedsOcc r.beds)).sum ≤
                (f.rooms.map (fun r => r.beds.length)).sum := by
              induction f.rooms with
              | nil => simp
              | cons r rs ihr =>
                  simp only [List.map_cons, List.sum_cons]
                  exact Nat.add_le_add (bedsOcc_le_length r.beds) ihr
            exact Nat.add_le_add hf ihf
      exact Nat.add_le_add hp ih

/-- C8: for every state of the entity graph, `getOccupancyStats` returns a
record whose `total` equals `occupied + available`, and whose `total` equals
the number of all beds across all rooms of all floors of all properties
(each bed counted exactly once by the nested traversal). -/
theorem getOccupancyStats_total_eq (properties : List OProperty) :
    (getOccupancyStats properties).total =
        (getOccupancyStats properties).occupied + (getOccupancyStats properties).available ∧
    (getOccupancyStats properties).total = totalBedCount properties := by
  have h := foldl_statsStep_props properties (0, 0)
  have hle := totalOccCount_le_totalBedCount properties
  simp only [getOccupancyStats, h]
  constructor
  · simp only [Nat.zero_add]
    omega
  · simp

/-! ### Derived monthly rent

Two distinct code paths derive a monthly rent figure:
  * `refreshData`'s bed transform, part_001 lines 362-379;
  * `transformResident`, api.ts (data-transform) lines 440-463.
-/

/-- The resident fields read by the rent computation inside `refreshData`
(part_001 lines 362-379): `bed.resident.frequency` (possibly absent, the code
defaults it with `|| 'MONTHLY'`) and `bed.resident.totalAmount`. -/
structure RentResident where
  frequency : Option Frequency
  totalAmount : Rat
deriving DecidableEq, Repr

/-- Monthly rent as computed inside `refreshData` (part_001 lines 362-379):
`monthlyRent = 0` unless `bed.resident?.totalAmount` is truthy (0 is falsy);
then YEARLY divides by 12, MONTHLY divides by 12 only when
`totalAmount > 50000`, and any other frequency uses the amount as-is. -/
def refreshDataMonthlyRent (resident : Option RentResident) : Rat :=
  match resident with
  | none => 0
  | some r =>
      if r.totalAmount = 0 then 0
      else
        match r.frequency.getD Frequency.MONTHLY with
        | Frequency.YEARLY => r.totalAmount / 12
        | Frequency.MONTHLY =>
            if r.totalAmount > 50000 then r.totalAmount / 12 else r.totalAmount
        | Frequency.EXCEPTION => r.totalAmount

/-- The booking fields relevant to `transformResident`'s rent computation
(api.ts lines 440-463): the declared billing frequency and the stored total. -/
structure BookingView where
  frequency : Frequency
  totalAmount : Rat
deriving DecidableEq, Repr

/-- Monthly rent as computed by `transformResident` (api.ts line 459):
`monthlyRent: booking?.totalAmount ? booking.totalAmount / 12 : 0`.
Note that the declared frequency is never consulted. -/
def transformResidentMonthlyRent (booking : Option BookingView) : Rat :=
  match booking with
  | none => 0
  | some b => if b.totalAmount = 0 then 0 else b.totalAmount / 12

/-- C4 counterexample: the claim says that outside the YEARLY and
MONTHLY-above-threshold cases the effective monthly rent is `totalAmount`
unchanged, but `transformResident` divides a MONTHLY booking of 5000
(well under the 50000 threshold) by 12. -/
theorem transformResidentMonthlyRent_monthly_5000 :
    transformResidentMonthlyRent (some ⟨Frequency.MONTHLY, 5000⟩) ≠ 5000 ∧
    (5000 : Rat) ≤ 50000 := by
  constructor
  · show ¬ ((5000 : Rat) / 12 = 5000)
    norm_num
  · norm_num

/-- C4 amended: the heuristic holds for the rent derived inside `refreshData`
(YEARLY divides by 12; MONTHLY divides by 12 exactly when the amount exceeds
the 50000 threshold; every other case is unchanged), while
`transformResident` always computes `totalAmount / 12` whatever the
frequency. -/
theorem monthlyRent_heuristic (freq : Frequency) (amount : Rat) :
    (refreshDataMonthlyRent (some ⟨some freq, amount⟩) =
      match freq with
      | Frequency.YEARLY => amount / 12
      | Frequency.MONTHLY => if amount > 50000 then amount / 12 else amount
      | Frequency.EXCEPTION => amount) ∧
    (∀ b : BookingView, transformResidentMonthlyRent (some b) = b.totalAmount / 12) := by
  constructor
  · by_cases h0 : amount = 0
    · subst h0
      cases freq <;> simp [refreshDataMonthlyRent]
    · cases freq <;> simp [refreshDataMonthlyRent, h0, Option.getD]
  · intro b
    by_cases h0 : b.totalAmount = 0
    · simp [transformResidentMonthlyRent, h0]
    · simp [transformResidentMonthlyRent, h0]

/-! ### Onboarding payload built by `addResident` (part_001 lines 496-520)

`addResident` calls `api.createOnboarding` with
`frequency` mapped from the frontend billing frequency and
`totalAmount: resident.monthlyRent * 12` — always annualized, for every
frequency. -/

/-- The resident-form fields `addResident` reads when building the payload. -/
structure ResidentForm where
  name : String
  billingFrequency : FrontFrequency
  monthlyRent : Rat
deriving DecidableEq, Repr

/-- The onboarding payload fields relevant to C9. -/
structure OnboardingPayload where
  frequency : Frequency
  totalAmount : Rat
  paymentMethod : String
deriving DecidableEq, Repr

/-- The payload `addResident` (part_001 lines 499-512) passes to
`api.createOnboarding`: frequency is mapped
monthly→MONTHLY / yearly→YEARLY / otherwise EXCEPTION, and
`totalAmount := resident.monthlyRent * 12`. -/
def addResidentPayload (r : ResidentForm) : OnboardingPayload :=
  { frequency :=
      match r.billingFrequency with
      | FrontFrequency.monthly => Frequency.MONTHLY
      | FrontFrequency.yearly => Frequency.YEARLY
      | FrontFrequency.custom => Frequency.EXCEPTION,
    totalAmount := r.monthlyRent * 12,
    paymentMethod := "CASH_OFFLINE" }

/-- C9 counterexample: a monthly resident with declared monthly amount 5000 is
onboarded with `totalAmount = 60000` — an annualized figure — not the
declared-frequency amount 5000 the claim requires for MONTHLY bookings. -/
theorem addResidentPayload_monthly_annualized :
    (addResidentPayload ⟨"s", FrontFrequency.monthly, 5000⟩).frequency = Frequency.MONTHLY ∧
    (addResidentPayload ⟨"s", FrontFrequency.monthly, 5000⟩).totalAmount = 60000 ∧
    (60000 : Rat) ≠ 5000 := by
  refine ⟨rfl, by norm_num [addResidentPayload], by norm_num⟩

/-- C9 amended: the Booking `totalAmount` stored at onboarding is always the
annualized figure `monthlyRent * 12`, for every declared billing frequency —
yearly bookings store the yearly total, but monthly and custom bookings also
store 12 times their declared amount rather than the declared-frequency
amount. -/
theorem addResidentPayload_totalAmount (r : ResidentForm) :
    (addResidentPayload r).totalAmount = r.monthlyRent * 12 ∧
    (addResidentPayload r).frequency =
      (match r.billingFrequency with
       | FrontFrequency.monthly => Frequency.MONTHLY
       | FrontFrequency.yearly => Frequency.YEARLY
       | FrontFrequency.custom => Frequency.EXCEPTION) := by
  exact ⟨rfl, rfl⟩

/-! ### Room capacity resize (`updateRoomBeds`, part_001 lines 184-216)

The first `HostelContext` copy implements the whole resize:
fails when `bedCount < occupiedBeds.length`, updates `capacity` to
`bedCount`, then for `i = currentBedCount; i < bedCount; i++` creates an
AVAILABLE bed labeled `String.fromCharCode(65 + i)`. The second copy
(part_001 lines 568-576) only forwards `capacity` to the backend PUT
/rooms/:id, which is not under src/. Labels are modelled by their character
code (`65 = 'A'`). -/

/-- A bed of a room as read by `updateRoomBeds`: its label char code and
status. -/
structure RBed where
  label : Nat
  status : BedStatus
deriving DecidableEq, Repr

/-- Number of OCCUPIED beds in a room's bed list
(`room.beds.filter(b => b.status === 'OCCUPIED').length`). -/
def occupiedBedCount (beds : List RBed) : Nat :=
  (beds.filter (fun b => b.status = BedStatus.OCCUPIED)).length

/-- Function `updateRoomBeds` (part_001 lines 184-216) on a room whose current beds
are `beds`: returns `none` when the occupancy guard throws
(`bedCount < occupiedBeds.length`, surfaced as `CapacityViolation`), else
`some (capacity, beds)` where capacity is set to `bedCount` and, when
`bedCount > currentBedCount`, one AVAILABLE bed labeled
`String.fromCharCode(65 + i)` is created for each
`i ∈ [currentBedCount, bedCount)`. -/
def updateRoomBeds (beds : List RBed) (bedCount : Nat) : Option (Nat × List RBed) :=
  if bedCount < occupiedBedCount beds then none
  else
    some (bedCount,
      beds ++ (List.range' beds.length (bedCount - beds.length)).map
        (fun i => { label := 65 + i, status := BedStatus.AVAILABLE }))

/-- C3: `updateRoomBeds` fails (with the `CapacityViolation` error
`Cannot reduce beds below occupied count`) exactly when the requested count
is below the occupied-bed count; on success the capacity becomes `bedCount`,
the existing beds are kept unchanged as a prefix (none deleted), exactly
`bedCount - currentBedCount` (truncated at 0) new beds are appended, all
AVAILABLE with the strictly increasing label codes
`65 + currentBedCount, ...`; and when the existing labels are the sequential
prefix `A, B, ...` the full label list is the sequential prefix of length
`max currentBedCount bedCount`, i.e. the new labels continue the existing
sequence. -/
theorem updateRoomBeds_spec (beds : List RBed) (bedCount : Nat) :
    (updateRoomBeds beds bedCount = none ↔ bedCount < occupiedBedCount beds) ∧
    (∀ cap res, updateRoomBeds beds bedCount = some (cap, res) →
      cap = bedCount ∧
      res.take beds.length = beds ∧
      (res.drop beds.length).length = bedCount - beds.length ∧
      (∀ b ∈ res.drop beds.length, b.status = BedStatus.AVAILABLE) ∧
      (res.drop beds.length).map RBed.label =
        List.range' (65 + beds.length) (bedCount - beds.length) ∧
      ((res.drop beds.length).map RBed.label).Pairwise (· < ·) ∧
      (beds.map RBed.label = List.range' 65 beds.length →
        res.map RBed.label = List.range' 65 (max beds.length bedCount))) := by
  constructor
  · unfold updateRoomBeds
    by_cases h : bedCount < occupiedBedCount beds <;> simp [h]
  · intro cap res hres
    unfold updateRoomBeds at hres
    by_cases h : bedCount < occupiedBedCount beds
    · simp [h] at hres
    · rw [if_neg h] at hres
      injection hres with h2
      injection h2 with hcap hbeds
      subst hcap
      subst hbeds
      refine ⟨rfl, ?_, ?_, ?_, ?_, ?_, ?_⟩
      · simp
      · simp
      · intro b hb
        simp only [List.drop_left, List.mem_map] at hb
        obtain ⟨i, _, hi⟩ := hb
        rw [← hi]
      · rw [List.drop_left, List.map_map]
        have : (RBed.label ∘ fun i => ({ label := 65 + i, status := BedStatus.AVAILABLE } : RBed)) =
            (fun i => 65 + i) := rfl
        rw [this, List.map_add_range']
      · rw [List.drop_left, List.map_map]
        have : (RBed.label ∘ fun i => ({ label := 65 + i, status := BedStatus.AVAILABLE } : RBed)) =
            (fun i => 65 + i) := rfl
        rw [this, List.map_add_range']
        exact List.pairwise_lt_range' _ _
      · intro hlab
        rw [List.map_append, hlab, List.map_map]
        have : (RBed.label ∘ fun i => ({ label := 65 + i, status := BedStatus.AVAILABLE } : RBed)) =
            (fun i => 65 + i) := rfl
        rw [this, List.map_add_range']
        have hmax : max beds.length bedCount = beds.length + (bedCount - beds.length) := by
          omega
        rw [hmax]
        rw [Nat.add_comm beds.length (bedCount - beds.length)]
        exact List.range'_append_1 65 beds.length (bedCount - beds.length)

/-- C3 witness: the spec scenario — a room with capacity 2 and beds A, B
(B occupied) resized to 4 yields capacity 4 and beds A, B, C, D with C and D
AVAILABLE and the existing beds untouched. -/
theorem updateRoomBeds_spec_witness :
    updateRoomBeds
        [⟨65, BedStatus.OCCUPIED⟩, ⟨66, BedStatus.AVAILABLE⟩] 4 =
      some (4, [⟨65, BedStatus.OCCUPIED⟩, ⟨66, BedStatus.AVAILABLE⟩,
        ⟨67, BedStatus.AVAILABLE⟩, ⟨68, BedStatus.AVAILABLE⟩]) ∧
    [⟨65, BedStatus.OCCUPIED⟩, (⟨66, BedStatus.AVAILABLE⟩ : RBed)].map RBed.label =
      List.range' 65 2 ∧
    ([⟨65, BedStatus.OCCUPIED⟩, ⟨66, BedStatus.AVAILABLE⟩,
      ⟨67, BedStatus.AVAILABLE⟩, (⟨68, BedStatus.AVAILABLE⟩ : RBed)].map RBed.label =
      List.range' 65 (max 2 4)) := by
  have h := (updateRoomBeds_spec
      [⟨65, BedStatus.OCCUPIED⟩, ⟨66, BedStatus.AVAILABLE⟩] 4).2
      4 [⟨65, BedStatus.OCCUPIED⟩, ⟨66, BedStatus.AVAILABLE⟩,
        ⟨67, BedStatus.AVAILABLE⟩, ⟨68, BedStatus.AVAILABLE⟩] (by decide)
  exact ⟨by decide, by decide, h.2.2.2.2.2.2 (by decide)⟩

/-! ### Room creation (`addRoom`, part_001 lines 536-566 / 147-182)

`addRoom` first awaits `api.createRoom(...)`, then runs
`for (let i = 0; i < bedCount; i++) await api.createBed({ label:
String.fromCharCode(65 + i), roomId: room.id, status: 'AVAILABLE' })`.
The `catch` block only logs and rethrows: there is no compensation — nothing
already persisted is deleted when a later `createBed` call fails. A bed
creation failure is modelled by a fault schedule `failAt`: `some k` means the
bed-creation call with loop index `k` throws. -/

/-- A persisted room row as created by `api.createRoom`:
`(id, roomNumber, capacity)`. -/
structure ARoom where
  id : String
  roomNumber : String
  capacity : Nat
deriving DecidableEq, Repr

/-- A persisted bed row as created by `api.createBed`: `(label char code,
owning room id)`; the status at creation is always `'AVAILABLE'`. -/
structure ABed where
  label : Nat
  roomId : String
deriving DecidableEq, Repr

/-- The persisted state the API calls mutate: the rooms and beds tables. -/
structure ApiState where
  rooms : List ARoom
  beds : List ABed
deriving DecidableEq, Repr

/-- The bed-creation loop of `addRoom`, starting at loop index `i` with
`remaining` iterations left: each iteration appends a bed labeled
`String.fromCharCode(65 + i)` unless the fault schedule `failAt` makes that
`createBed` call throw, in which case the loop stops and the error
propagates (`false`) with everything already created left persisted. -/
def createBedsLoop (st : ApiState) (roomId : String) (i remaining : Nat)
    (failAt : Option Nat) : ApiState × Bool :=
  match remaining with
  | 0 => (st, true)
  | r + 1 =>
      if failAt = some i then (st, false)
      else
        createBedsLoop ⟨st.rooms, st.beds ++ [⟨65 + i, roomId⟩]⟩ roomId (i + 1) r failAt

/-- Function `addRoom` (part_001 lines 536-566): awaits `api.createRoom` (appending
the room row with `capacity := bedCount`), then runs the bed-creation loop
for `bedCount` iterations; the `catch` only logs and rethrows, so on a
thrown bed creation the room and the beds created so far stay persisted —
there is no compensation code. -/
def addRoom (st : ApiState) (roomId roomNumber : String) (bedCount : Nat)
    (failAt : Option Nat) : ApiState × Bool :=
  createBedsLoop ⟨st.rooms ++ [⟨roomId, roomNumber, bedCount⟩], st.beds⟩
    roomId 0 bedCount failAt

theorem createBedsLoop_ok (roomId : String) (failAt : Option Nat) :
    ∀ (remaining i : Nat) (st : ApiState),
      (∀ k, failAt = some k → k < i ∨ i + remaining ≤ k) →
      createBedsLoop st roomId i remaining failAt =
        (⟨st.rooms, st.beds ++ (List.range' i remaining).map
            (fun j => ⟨65 + j, roomId⟩)⟩, true) := by
  intro remaining
  induction remaining with
  | zero => intro i st _; simp [createBedsLoop]
  | succ r ih =>
      intro i st hok
      have hne : failAt ≠ some i := by
        intro hcontra
        rcases hok i hcontra with h | h <;> omega
      rw [createBedsLoop, if_neg hne, ih (i + 1)]
      · simp [List.range'_succ]
      · intro k hk
        rcases hok k hk with h | h
        · left; omega
        · right; omega

theorem createBedsLoop_fail (roomId : String) (k : Nat) :
    ∀ (remaining i : Nat) (st : ApiState),
      i ≤ k → k < i + remaining →
      createBedsLoop st roomId i remaining (some k) =
        (⟨st.rooms, st.beds ++ (List.range' i (k - i)).map
            (fun j => ⟨65 + j, roomId⟩)⟩, false) := by
  intro remaining
  induction remaining with
  | zero => intro i st h1 h2; omega
  | succ r ih =>
      intro i st h1 h2
      by_cases hik : i = k
      · subst hik
        rw [createBedsLoop, if_pos rfl]
        simp
      · have hne : (some k : Option Nat) ≠ some i := by
          intro hcontra
          exact hik (Option.some.inj hcontra).symm
        rw [createBedsLoop, if_neg hne, ih (i + 1) _ (by omega) (by omega)]
        have hk : k - i = (k - (i + 1)) + 1 := by omega
        simp only [hk, List.range'_succ, List.map_cons, List.cons_append,
          List.map_append]
        simp

/-- C6 counterexample: `addRoom` asked for 2 beds with the second
`createBed` call (loop index 1) failing reports failure but the final state
keeps the room row and the single bed `A`: a Room persisted with fewer beds
than requested, nothing rolled back to the pre-call (empty) state. -/
theorem addRoom_noRollback :
    (addRoom ⟨[], []⟩ "r1" "101" 2 (some 1)).2 = false ∧
    (addRoom ⟨[], []⟩ "r1" "101" 2 (some 1)).1.rooms = [⟨"r1", "101", 2⟩] ∧
    (addRoom ⟨[], []⟩ "r1" "101" 2 (some 1)).1.beds = [⟨65, "r1"⟩] ∧
    (addRoom ⟨[], []⟩ "r1" "101" 2 (some 1)).1 ≠ (⟨[], []⟩ : ApiState) := by
  have hrun := createBedsLoop_fail "r1" 1 2 0 ⟨[⟨"r1", "101", 2⟩], []⟩ (Nat.zero_le 1) (by omega)
  have h1 : (addRoom ⟨[], []⟩ "r1" "101" 2 (some 1)).1.rooms = [⟨"r1", "101", 2⟩] := by
    rw [addRoom]
    simp only [List.nil_append]
    rw [hrun]
  refine ⟨?_, h1, ?_, ?_⟩
  · rw [addRoom]
    simp only [List.nil_append]
    rw [hrun]
  · rw [addRoom]
    simp only [List.nil_append]
    rw [hrun]
    simp [List.range'_succ]
  · intro hcontra
    rw [hcontra] at h1
    exact absurd h1 (by simp)

/-- C6 amended: `addRoom` creates the Room and then exactly `bedCount` beds
labeled with the consecutive char codes of A, B, C, ... when no call fails;
but when the bed-creation call at index `k < bedCount` fails, nothing is
rolled back — the final state still holds the new room row and the `k` beds
already created, i.e. a Room persisted with fewer beds than requested. -/
theorem addRoom_behaviour (st : ApiState) (roomId roomNumber : String)
    (bedCount : Nat) :
    (addRoom st roomId roomNumber bedCount none =
      (⟨st.rooms ++ [⟨roomId, roomNumber, bedCount⟩],
        st.beds ++ (List.range' 0 bedCount).map (fun j => ⟨65 + j, roomId⟩)⟩, true)) ∧
    (∀ k, k < bedCount →
      addRoom st roomId roomNumber bedCount (some k) =
        (⟨st.rooms ++ [⟨roomId, roomNumber, bedCount⟩],
          st.beds ++ (List.range' 0 k).map (fun j => ⟨65 + j, roomId⟩)⟩, false)) := by
  constructor
  · rw [addRoom, createBedsLoop_ok]
    intro k hk
    exact absurd hk (by simp)
  · intro k hk
    rw [addRoom, createBedsLoop_fail roomId k bedCount 0 _ (Nat.zero_le k) (by omega)]
    simp

/-- C6 amended-claim witness: a concrete successful run (3 beds, no failure)
and a concrete partial failure (index 1 of 2) instantiating
`addRoom_behaviour`. -/
theorem addRoom_behaviour_witness :
    (addRoom ⟨[], []⟩ "r1" "101" 3 none =
      (⟨[⟨"r1", "101", 3⟩],
        [⟨65, "r1"⟩, ⟨66, "r1"⟩, ⟨67, "r1"⟩]⟩, true)) ∧
    (addRoom ⟨[], []⟩ "r2" "102" 2 (some 1) =
      (⟨[⟨"r2", "102", 2⟩], [⟨65, "r2"⟩]⟩, false)) := by
  constructor
  · have h := (addRoom_behaviour ⟨[], []⟩ "r1" "101" 3).1
    rw [h]
    simp [List.range'_succ]
  · have h := (addRoom_behaviour ⟨[], []⟩ "r2" "102" 2).2 1 (by omega)
    rw [h]
    simp [List.range'_succ]

/-! ### Backend allocation engine and onboarding coordinator

The Express routes implementing POST /onboarding and the bed-assignment
transaction are not part of the provided sources (only their callers
`addResident` / `api.createOnboarding` and `api.updateBed` are), so the two
operations below are modelled from the spec (§4.1, §4.2, §5, §7). -/

/-- A persisted bed with identity, as held by the Store. -/
structure SBed where
  id : String
  status : BedStatus
  currentStudentId : Option String
deriving DecidableEq, Repr

/-- A persisted student row. -/
structure SStudent where
  id : String
  name : String
  isActive : Bool
deriving DecidableEq, Repr

/-- A persisted booking row. -/
structure SBooking where
  id : String
  studentId : String
  frequency : Frequency
  totalAmount : Rat
deriving DecidableEq, Repr

/-- A persisted payment row. -/
structure SPayment where
  id : String
  bookingId : String
  amount : Rat
deriving DecidableEq, Repr

/-- The entity store: one transactional snapshot of all four tables. -/
structure Store where
  beds : List SBed
  students : List SStudent
  bookings : List SBooking
  payments : List SPayment
deriving DecidableEq, Repr

/-- Stable error kinds of the core (§7). -/
inductive OpError where
  | NotFound
  | Conflict
deriving DecidableEq, Repr

/-- Look a bed up by id. -/
def findBed (st : Store) (bedId : String) : Option SBed :=
  st.beds.find? (fun b => b.id = bedId)

/-- Replace the bed with id `bedId` by `f` of it, leaving all other beds
untouched. -/
def setBed (st : Store) (bedId : String) (f : SBed → SBed) : Store :=
  { st with beds := st.beds.map (fun b => if b.id = bedId then f b else b) }

/-- Modelled from the spec: `assignBed(bedId, studentId)` of the Allocation
Engine (§4.1), whose backend route is not under src/. Preconditions: the bed
exists and is AVAILABLE; the student exists, is active, and holds no other
bed. It fails with `Conflict` when the bed is already OCCUPIED (no silent
overwrite) or the student already holds a bed, and otherwise atomically sets
`status := OCCUPIED` and `currentStudentId := studentId`. The first
component of the result is the post state (unchanged on error). -/
def assignBed (st : Store) (bedId studentId : String) : Store × Except OpError Unit :=
  match findBed st bedId with
  | none => (st, Except.error OpError.NotFound)
  | some bed =>
      if bed.status = BedStatus.OCCUPIED then (st, Except.error OpError.Conflict)
      else if st.beds.any (fun b => b.currentStudentId = some studentId) then
        (st, Except.error OpError.Conflict)
      else
        match st.students.find? (fun s => s.id = studentId) with
        | none => (st, Except.error OpError.NotFound)
        | some s =>
            if s.isActive then
              (setBed st bedId (fun b =>
                { b with status := BedStatus.OCCUPIED,
                         currentStudentId := some studentId }), Except.ok ())
            else (st, Except.error OpError.Conflict)

/-- C5: on a bed that is already OCCUPIED, `assignBed` fails with `Conflict`
and the store — in particular every field of that bed — is unchanged: the
existing occupant is never silently overwritten. -/
theorem assignBed_occupied_conflict (st : Store) (bedId studentId : String)
    (bed : SBed) (hfind : findBed st bedId = some bed)
    (hocc : bed.status = BedStatus.OCCUPIED) :
    assignBed st bedId studentId = (st, Except.error OpError.Conflict) ∧
    findBed (assignBed st bedId studentId).1 bedId = some bed := by
  have h : assignBed st bedId studentId = (st, Except.error OpError.Conflict) := by
    rw [assignBed, hfind]
    simp [hocc]
  exact ⟨h, by rw [h]; exact hfind⟩

/-- C5 witness: assigning student `s2` to the occupied bed `b1` (held by
`s1`) fails with Conflict and leaves the bed record intact. -/
theorem assignBed_occupied_conflict_witness :
    assignBed ⟨[⟨"b1", BedStatus.OCCUPIED, some "s1"⟩], [⟨"s2", "x", true⟩], [], []⟩
        "b1" "s2" =
      (⟨[⟨"b1", BedStatus.OCCUPIED, some "s1"⟩], [⟨"s2", "x", true⟩], [], []⟩,
        Except.error OpError.Conflict) := by
  exact (assignBed_occupied_conflict
    ⟨[⟨"b1", BedStatus.OCCUPIED, some "s1"⟩], [⟨"s2", "x", true⟩], [], []⟩
    "b1" "s2" ⟨"b1", BedStatus.OCCUPIED, some "s1"⟩ (by decide) rfl).1

/-- The request `onboard` receives (profile fields beyond the name are not
needed by the claims). -/
structure OnboardReq where
  name : String
  bedId : String
  frequency : Frequency
  totalAmount : Rat
deriving DecidableEq, Repr

/-- Modelled from the spec: the Onboarding Coordinator (§4.2), whose backend
POST /onboarding route is not under src/. In one transaction it re-checks
that the target bed exists and is AVAILABLE at commit time, then creates the
Student, the Booking linking the Student, the Payment linking the Booking,
and assigns the bed to the new Student; if the bed is missing or OCCUPIED it
fails (with `Conflict` when OCCUPIED) and commits nothing. The ids of the
created rows are passed in (the store would generate them). The first
component of the result is the post state (unchanged on error). -/
def onboard (st : Store) (req : OnboardReq)
    (studentId bookingId paymentId : String) : Store × Except OpError Unit :=
  match findBed st req.bedId with
  | none => (st, Except.error OpError.NotFound)
  | some bed =>
      if bed.status = BedStatus.OCCUPIED then (st, Except.error OpError.Conflict)
      else
        (setBed
          { st with
              students := st.students ++ [⟨studentId, req.name, true⟩],
              bookings := st.bookings ++ [⟨bookingId, studentId, req.frequency, req.totalAmount⟩],
              payments := st.payments ++ [⟨paymentId, bookingId, req.totalAmount⟩] }
          req.bedId
          (fun b => { b with status := BedStatus.OCCUPIED,
                             currentStudentId := some studentId }),
         Except.ok ())

theorem findBed_setBed_self (st : Store) (bedId : String) (f : SBed → SBed)
    (bed : SBed) (hfb : findBed st bedId = some bed)
    (hpres : ∀ b, (f b).id = b.id) :
    findBed (setBed st bedId f) bedId = some (f bed) := by
  have hfbu : st.beds.find? (fun b => decide (b.id = bedId)) = some bed := by
    simpa [findBed] using hfb
  have hid : bed.id = bedId := by
    have := List.find?_some hfbu
    simpa using this
  unfold findBed setBed at *
  rw [List.find?_map]
  have hcomp : ((fun (b : SBed) => decide (b.id = bedId)) ∘
      (fun b => if b.id = bedId then f b else b)) =
      (fun (b : SBed) => decide (b.id = bedId)) := by
    funext b
    by_cases hb : b.id = bedId <;> simp [hb, hpres b]
  rw [show ((fun (b : SBed) => decide (b.id = bedId)) ∘
      (fun b => if b.id = bedId then f b else b)) =
      (fun (b : SBed) => decide (b.id = bedId)) from hcomp]
  rw [hfb]
  simp [hid]

theorem onboard_eq_none (st : Store) (req : OnboardReq)
    (studentId bookingId paymentId : String)
    (hfb : findBed st req.bedId = none) :
    onboard st req studentId bookingId paymentId =
      (st, Except.error OpError.NotFound) := by
  rw [onboard, hfb]

theorem onboard_eq_occupied (st : Store) (req : OnboardReq)
    (studentId bookingId paymentId : String) (bed : SBed)
    (hfb : findBed st req.bedId = some bed)
    (hocc : bed.status = BedStatus.OCCUPIED) :
    onboard st req studentId bookingId paymentId =
      (st, Except.error OpError.Conflict) := by
  rw [onboard, hfb]
  simp [hocc]

theorem onboard_eq_free (st : Store) (req : OnboardReq)
    (studentId bookingId paymentId : String) (bed : SBed)
    (hfb : findBed st req.bedId = some bed)
    (hocc : bed.status ≠ BedStatus.OCCUPIED) :
    onboard st req studentId bookingId paymentId =
      (setBed
        { st with
            students := st.students ++ [⟨studentId, req.name, true⟩],
            bookings := st.bookings ++ [⟨bookingId, studentId, req.frequency, req.totalAmount⟩],
            payments := st.payments ++ [⟨paymentId, bookingId, req.totalAmount⟩] }
        req.bedId
        (fun b => { b with status := BedStatus.OCCUPIED,
                           currentStudentId := some studentId }),
       Except.ok ()) := by
  rw [onboard, hfb]
  simp [hocc]

/-- C1: `onboard` is atomic. Whenever it reports an error the store is
exactly the pre state (zero records of any kind created); whenever it
succeeds it creates exactly one student, one booking and one payment row and
marks the target bed OCCUPIED by the new student; and when the target bed —
AVAILABLE when the caller selected it — is OCCUPIED at commit time, it fails
with `Conflict` and creates nothing. -/
theorem onboard_atomic (st : Store) (req : OnboardReq)
    (studentId bookingId paymentId : String) :
    (∀ e, (onboard st req studentId bookingId paymentId).2 = Except.error e →
      (onboard st req studentId bookingId paymentId).1 = st) ∧
    ((onboard st req studentId bookingId paymentId).2 = Except.ok () →
      (onboard st req studentId bookingId paymentId).1.students =
          st.students ++ [⟨studentId, req.name, true⟩] ∧
      (onboard st req studentId bookingId paymentId).1.bookings =
          st.bookings ++ [⟨bookingId, studentId, req.frequency, req.totalAmount⟩] ∧
      (onboard st req studentId bookingId paymentId).1.payments =
          st.payments ++ [⟨paymentId, bookingId, req.totalAmount⟩] ∧
      (∀ bed, findBed st req.bedId = some bed →
        findBed (onboard st req studentId bookingId paymentId).1 req.bedId =
          some { bed with status := BedStatus.OCCUPIED,
                          currentStudentId := some studentId })) ∧
    (∀ bed, findBed st req.bedId = some bed → bed.status = BedStatus.OCCUPIED →
      (onboard st req studentId bookingId paymentId).2 = Except.error OpError.Conflict ∧
      (onboard st req studentId bookingId paymentId).1 = st) := by
  refine ⟨?_, ?_, ?_⟩
  · intro e herr
    cases hfb : findBed st req.bedId with
    | none => rw [onboard_eq_none st req studentId bookingId paymentId hfb]
    | some bed =>
        by_cases hocc : bed.status = BedStatus.OCCUPIED
        · rw [onboard_eq_occupied st req studentId bookingId paymentId bed hfb hocc]
        · rw [onboard_eq_free st req studentId bookingId paymentId bed hfb hocc] at herr
          exact absurd herr (by simp)
  · intro hok
    cases hfb : findBed st req.bedId with
    | none =>
        rw [onboard_eq_none st req studentId bookingId paymentId hfb] at hok
        exact absurd hok (by simp)
    | some bed =>
        by_cases hocc : bed.status = BedStatus.OCCUPIED
        · rw [onboard_eq_occupied st req studentId bookingId paymentId bed hfb hocc] at hok
          exact absurd hok (by simp)
        · rw [onboard_eq_free st req studentId bookingId paymentId bed hfb hocc]
          refine ⟨rfl, rfl, rfl, ?_⟩
          intro bed2 hfb2
          have hbed : bed2 = bed := (Option.some.inj hfb2).symm
          subst hbed
          exact findBed_setBed_self _ req.bedId _ bed2
            (by simpa [findBed] using hfb) (fun b => rfl)
  · intro bed hfb hocc
    exact ⟨by rw [onboard_eq_occupied st req studentId bookingId paymentId bed hfb hocc],
           by rw [onboard_eq_occupied st req studentId bookingId paymentId bed hfb hocc]⟩

/-- C1 witness: onboarding into a store whose only bed `b1` is OCCUPIED (it
became occupied between selection and commit) fails with `Conflict` and
changes nothing. -/
theorem onboard_atomic_witness :
    (onboard ⟨[⟨"b1", BedStatus.OCCUPIED, some "s0"⟩], [], [], []⟩
        ⟨"n", "b1", Frequency.YEARLY, 60000⟩ "s1" "k1" "p1").2 =
      Except.error OpError.Conflict ∧
    (onboard ⟨[⟨"b1", BedStatus.OCCUPIED, some "s0"⟩], [], [], []⟩
        ⟨"n", "b1", Frequency.YEARLY, 60000⟩ "s1" "k1" "p1").1 =
      ⟨[⟨"b1", BedStatus.OCCUPIED, some "s0"⟩], [], [], []⟩ := by
  exact (onboard_atomic ⟨[⟨"b1", BedStatus.OCCUPIED, some "s0"⟩], [], [], []⟩
    ⟨"n", "b1", Frequency.YEARLY, 60000⟩ "s1" "k1" "p1").2.2
    ⟨"b1", BedStatus.OCCUPIED, some "s0"⟩ (by decide) rfl

/-! ### The bed-status invariant (§3, §8)

`updateBedStatus` (part_001 lines 522-534 / 134-145) only forwards a status
change to PUT /beds/:id, and that handler — like the rest of the bed-writing
backend — is not under src/, so per §4.1/§4.2 the bed-marking operations are
the spec-modelled `assignBed`, `releaseBed` and `onboard` below and the
invariant is settled against them. -/

/-- Modelled from the spec: `releaseBed(bedId)` of the Allocation Engine
(§4.1), whose backend route is not under src/. Effect: sets
`status := AVAILABLE` and `currentStudentId := null`; calling it on an
already-AVAILABLE bed is a permitted no-op (not an error). -/
def releaseBed (st : Store) (bedId : String) : Store × Except OpError Unit :=
  match findBed st bedId with
  | none => (st, Except.error OpError.NotFound)
  | some _ =>
      (setBed st bedId (fun b =>
        { b with status := BedStatus.AVAILABLE, currentStudentId := none }),
       Except.ok ())

/-- The C2 invariant over a whole store:
every bed satisfies `status == OCCUPIED ⇔ currentStudentId != null`. -/
def storeBedInvariant (st : Store) : Prop :=
  ∀ b ∈ st.beds, (b.status = BedStatus.OCCUPIED ↔ b.currentStudentId ≠ none)

instance (st : Store) : Decidable (storeBedInvariant st) := by
  unfold storeBedInvariant
  infer_instance

theorem storeBedInvariant_setBed (st : Store) (bedId : String) (f : SBed → SBed)
    (hinv : storeBedInvariant st)
    (hf : ∀ b, ((f b).status = BedStatus.OCCUPIED ↔ (f b).currentStudentId ≠ none)) :
    storeBedInvariant (setBed st bedId f) := by
  intro b hb
  simp only [setBed, List.mem_map] at hb
  obtain ⟨b0, hb0, hb0e⟩ := hb
  by_cases h : b0.id = bedId
  · rw [if_pos h] at hb0e
    rw [← hb0e]
    exact hf b0
  · rw [if_neg h] at hb0e
    rw [← hb0e]
    exact hinv b0 hb0

theorem releaseBed_eq_none (st : Store) (bedId : String)
    (hfb : findBed st bedId = none) :
    releaseBed st bedId = (st, Except.error OpError.NotFound) := by
  rw [releaseBed, hfb]

theorem releaseBed_eq_some (st : Store) (bedId : String) (bed : SBed)
    (hfb : findBed st bedId = some bed) :
    releaseBed st bedId =
      (setBed st bedId (fun b =>
        { b with status := BedStatus.AVAILABLE, currentStudentId := none }),
       Except.ok ()) := by
  rw [releaseBed, hfb]

theorem assignBed_eq_nobed (st : Store) (bedId studentId : String)
    (hfb : findBed st bedId = none) :
    assignBed st bedId studentId = (st, Except.error OpError.NotFound) := by
  rw [assignBed, hfb]

theorem assignBed_eq_occ (st : Store) (bedId studentId : String) (bed : SBed)
    (hfb : findBed st bedId = some bed)
    (hocc : bed.status = BedStatus.OCCUPIED) :
    assignBed st bedId studentId = (st, Except.error OpError.Conflict) := by
  rw [assignBed, hfb]
  simp [hocc]

theorem assignBed_eq_held (st : Store) (bedId studentId : String) (bed : SBed)
    (hfb : findBed st bedId = some bed)
    (hocc : bed.status ≠ BedStatus.OCCUPIED)
    (hany : st.beds.any (fun b => b.currentStudentId = some studentId) = true) :
    assignBed st bedId studentId = (st, Except.error OpError.Conflict) := by
  rw [assignBed, hfb]
  simp [hocc, hany]

theorem assignBed_eq_nostu (st : Store) (bedId studentId : String) (bed : SBed)
    (hfb : findBed st bedId = some bed)
    (hocc : bed.status ≠ BedStatus.OCCUPIED)
    (hany : st.beds.any (fun b => b.currentStudentId = some studentId) = false)
    (hstu : st.students.find? (fun s => s.id = studentId) = none) :
    assignBed st bedId studentId = (st, Except.error OpError.NotFound) := by
  rw [assignBed, hfb]
  simp [hocc, hany, hstu]

theorem assignBed_eq_inactive (st : Store) (bedId studentId : String) (bed : SBed)
    (s : SStudent) (hfb : findBed st bedId = some bed)
    (hocc : bed.status ≠ BedStatus.OCCUPIED)
    (hany : st.beds.any (fun b => b.currentStudentId = some studentId) = false)
    (hstu : st.students.find? (fun s => s.id = studentId) = some s)
    (hact : s.isActive = false) :
    assignBed st bedId studentId = (st, Except.error OpError.Conflict) := by
  rw [assignBed, hfb]
  simp [hocc, hany, hstu, hact]

theorem assignBed_eq_ok (st : Store) (bedId studentId : String) (bed : SBed)
    (s : SStudent) (hfb : findBed st bedId = some bed)
    (hocc : bed.status ≠ BedStatus.OCCUPIED)
    (hany : st.beds.any (fun b => b.currentStudentId = some studentId) = false)
    (hstu : st.students.find? (fun s => s.id = studentId) = some s)
    (hact : s.isActive = true) :
    assignBed st bedId studentId =
      (setBed st bedId (fun b =>
        { b with status := BedStatus.OCCUPIED,
                 currentStudentId := some studentId }),
       Except.ok ()) := by
  rw [assignBed, hfb]
  simp [hocc, hany, hstu, hact]

theorem assignBed_shape (st : Store) (bedId studentId : String) :
    (∃ e, assignBed st bedId studentId = (st, Except.error e)) ∨
    assignBed st bedId studentId =
      (setBed st bedId (fun b =>
        { b with status := BedStatus.OCCUPIED,
                 currentStudentId := some studentId }),
       Except.ok ()) := by
  cases hfb : findBed st bedId with
  | none => exact Or.inl ⟨OpError.NotFound, assignBed_eq_nobed st bedId studentId hfb⟩
  | some bed =>
      by_cases hocc : bed.status = BedStatus.OCCUPIED
      · exact Or.inl ⟨OpError.Conflict, assignBed_eq_occ st bedId studentId bed hfb hocc⟩
      · cases hany : st.beds.any (fun b => b.currentStudentId = some studentId) with
        | true =>
            exact Or.inl ⟨OpError.Conflict,
              assignBed_eq_held st bedId studentId bed hfb hocc hany⟩
        | false =>
            cases hstu : st.students.find? (fun s => s.id = studentId) with
            | none =>
                exact Or.inl ⟨OpError.NotFound,
                  assignBed_eq_nostu st bedId studentId bed hfb hocc hany hstu⟩
            | some s =>
                cases hact : s.isActive with
                | false =>
                    exact Or.inl ⟨OpError.Conflict,
                      assignBed_eq_inactive st bedId studentId bed s hfb hocc hany hstu hact⟩
                | true =>
                    exact Or.inr
                      (assignBed_eq_ok st bedId studentId bed s hfb hocc hany hstu hact)

/-- C2: under the spec-modelled bed-writing operations, the invariant
`status == OCCUPIED ⇔ currentStudentId != null` holds for every bed after
every operation: `assignBed`, `releaseBed` and `onboard` all preserve it on
any store satisfying it; a successful `assignBed` marks the bed OCCUPIED
with the non-null `currentStudentId = some studentId`; and `releaseBed` on
an existing bed marks it AVAILABLE with `currentStudentId` cleared to null.
(The bed-creating paths `addRoom`/`updateRoomBeds` only create AVAILABLE
beds with no occupant.) -/
theorem bedOps_preserve_invariant (st : Store) (bedId studentId : String)
    (req : OnboardReq) (sid bid pid : String) (hinv : storeBedInvariant st) :
    storeBedInvariant (assignBed st bedId studentId).1 ∧
    storeBedInvariant (releaseBed st bedId).1 ∧
    storeBedInvariant (onboard st req sid bid pid).1 ∧
    ((assignBed st bedId studentId).2 = Except.ok () →
      ∀ bed, findBed st bedId = some bed →
        findBed (assignBed st bedId studentId).1 bedId =
          some { bed with status := BedStatus.OCCUPIED,
                          currentStudentId := some studentId }) ∧
    (∀ bed, findBed st bedId = some bed →
      findBed (releaseBed st bedId).1 bedId =
        some { bed with status := BedStatus.AVAILABLE,
                        currentStudentId := none }) := by
  refine ⟨?_, ?_, ?_, ?_, ?_⟩
  · rcases assignBed_shape st bedId studentId with ⟨e, he⟩ | hok
    · rw [he]
      exact hinv
    · rw [hok]
      exact storeBedInvariant_setBed st bedId _ hinv (fun b => by simp)
  · cases hfb : findBed st bedId with
    | none =>
        rw [releaseBed_eq_none st bedId hfb]
        exact hinv
    | some bed =>
        rw [releaseBed_eq_some st bedId bed hfb]
        exact storeBedInvariant_setBed st bedId _ hinv (fun b => by simp)
  · cases hfb : findBed st req.bedId with
    | none =>
        rw [onboard_eq_none st req sid bid pid hfb]
        exact hinv
    | some bed =>
        by_cases hocc : bed.status = BedStatus.OCCUPIED
        · rw [onboard_eq_occupied st req sid bid pid bed hfb hocc]
          exact hinv
        · rw [onboard_eq_free st req sid bid pid bed hfb hocc]
          exact storeBedInvariant_setBed _ req.bedId _ (fun b hb => hinv b hb)
            (fun b => by simp)
  · intro hok bed hfb
    rcases assignBed_shape st bedId studentId with ⟨e, he⟩ | hok2
    · rw [he] at hok
      exact absurd hok (by simp)
    · rw [hok2]
      exact findBed_setBed_self st bedId _ bed hfb (fun b => rfl)
  · intro bed hfb
    rw [releaseBed_eq_some st bedId bed hfb]
    exact findBed_setBed_self st bedId _ bed hfb (fun b => rfl)

/-- C2 witness: on the concrete store whose bed `b1` is OCCUPIED by `s1`
(invariant holds), `releaseBed` yields an invariant-respecting store whose
bed `b1` is AVAILABLE with `currentStudentId` cleared to null, and
`assignBed` of `s2` onto the AVAILABLE bed `b2` of a second store marks it
OCCUPIED with `currentStudentId = some s2`. -/
theorem bedOps_preserve_invariant_witness :
    (storeBedInvariant
        (releaseBed ⟨[⟨"b1", BedStatus.OCCUPIED, some "s1"⟩], [], [], []⟩ "b1").1 ∧
      findBed (releaseBed ⟨[⟨"b1", BedStatus.OCCUPIED, some "s1"⟩], [], [], []⟩ "b1").1
          "b1" = some ⟨"b1", BedStatus.AVAILABLE, none⟩) ∧
    findBed (assignBed ⟨[⟨"b2", BedStatus.AVAILABLE, none⟩], [⟨"s2", "x", true⟩], [], []⟩
        "b2" "s2").1 "b2" = some ⟨"b2", BedStatus.OCCUPIED, some "s2"⟩ := by
  have h1 := bedOps_preserve_invariant
    ⟨[⟨"b1", BedStatus.OCCUPIED, some "s1"⟩], [], [], []⟩ "b1" "s2"
    ⟨"n", "b1", Frequency.MONTHLY, 5000⟩ "sx" "bx" "px" (by decide)
  have h2 := bedOps_preserve_invariant
    ⟨[⟨"b2", BedStatus.AVAILABLE, none⟩], [⟨"s2", "x", true⟩], [], []⟩ "b2" "s2"
    ⟨"n", "b2", Frequency.MONTHLY, 5000⟩ "sx" "bx" "px" (by decide)
  refine ⟨⟨h1.2.1, h1.2.2.2.2 ⟨"b1", BedStatus.OCCUPIED, some "s1"⟩ (by decide)⟩, ?_⟩
  exact h2.2.2.2.1 (by rfl) ⟨"b2", BedStatus.AVAILABLE, none⟩ (by decide)

/-! ### Complaint lifecycle (§4.3)

The frontend `updateComplaintStatus` (part_001 lines 594-605) only maps the
status through `transformComplaintStatusToBackend` (api.ts data-transform
lines 376-383) and PUTs it; the PUT /complaints/:id handler enforcing the
state machine is not under src/ and is modelled from the spec. -/

/-- Complaint status `'OPEN' | 'IN_PROGRESS' | 'RESOLVED'`. -/
inductive CStatus where
  | OPEN
  | IN_PROGRESS
  | RESOLVED
deriving DecidableEq, Repr

/-- Frontend complaint status strings `'open' | 'in-progress' | 'resolved'`. -/
inductive FrontCStatus where
  | open_
  | inProgress
  | resolved
deriving DecidableEq, Repr

/-- Function `transformComplaintStatusToBackend` (api.ts data-transform lines
376-383): maps the three frontend strings to the backend enumeration (the
`|| 'OPEN'` fallback is unreachable for the closed frontend type). -/
def transformComplaintStatusToBackend (s : FrontCStatus) : CStatus :=
  match s with
  | FrontCStatus.open_ => CStatus.OPEN
  | FrontCStatus.inProgress => CStatus.IN_PROGRESS
  | FrontCStatus.resolved => CStatus.RESOLVED

/-- A persisted complaint: its status and nullable resolution timestamp. -/
structure ComplaintRec where
  status : CStatus
  resolvedAt : Option Nat
deriving DecidableEq, Repr

/-- Modelled from the spec: `updateStatus(complaintId, newStatus)` of the
Complaint Lifecycle Manager (§4.3), whose PUT /complaints/:id handler is not
under src/. Re-submitting the current status is a no-op success; RESOLVED is
terminal; any transition targeting OPEN from a non-OPEN state is rejected;
entry into RESOLVED stamps `resolvedAt := now`, any other applied transition
leaves it null. -/
def updateComplaintStatus (c : ComplaintRec) (newStatus : CStatus) (now : Nat) :
    Except OpError ComplaintRec :=
  if c.status = newStatus then Except.ok c
  else if c.status = CStatus.RESOLVED then Except.error OpError.Conflict
  else
    match newStatus with
    | CStatus.OPEN => Except.error OpError.Conflict
    | CStatus.IN_PROGRESS => Except.ok ⟨CStatus.IN_PROGRESS, none⟩
    | CStatus.RESOLVED => Except.ok ⟨CStatus.RESOLVED, some now⟩

/-- The resolvedAt invariant: the timestamp is non-null exactly in state
RESOLVED. -/
def complaintInvariant (c : ComplaintRec) : Prop :=
  c.resolvedAt ≠ none ↔ c.status = CStatus.RESOLVED

instance (c : ComplaintRec) : Decidable (complaintInvariant c) := by
  unfold complaintInvariant
  infer_instance

/-- C7: the complaint machine only moves forward — every transition into
OPEN from a non-OPEN state is rejected; RESOLVED is terminal (no transition
out of it succeeds); on every success from an invariant-respecting state the
invariant `resolvedAt != null ⇔ status == RESOLVED` still holds, a fresh
entry into RESOLVED carries `resolvedAt = some now`, and a result that is
not RESOLVED carries `resolvedAt = none`; re-submitting the current status
is a no-op success rather than an error. -/
theorem updateComplaintStatus_machine (c : ComplaintRec) (newStatus : CStatus)
    (now : Nat) :
    (c.status ≠ CStatus.OPEN → newStatus = CStatus.OPEN →
      updateComplaintStatus c newStatus now = Except.error OpError.Conflict) ∧
    (c.status = CStatus.RESOLVED → newStatus ≠ CStatus.RESOLVED →
      updateComplaintStatus c newStatus now = Except.error OpError.Conflict) ∧
    (∀ c2, complaintInvariant c →
      updateComplaintStatus c newStatus now = Except.ok c2 →
      complaintInvariant c2 ∧
      (c.status ≠ CStatus.RESOLVED → newStatus = CStatus.RESOLVED →
        c2.resolvedAt = some now) ∧
      (c2.status ≠ CStatus.RESOLVED → c2.resolvedAt = none)) ∧
    updateComplaintStatus c c.status now = Except.ok c := by
  refine ⟨?_, ?_, ?_, ?_⟩
  · intro hne hop
    subst hop
    rw [updateComplaintStatus.eq_def, if_neg hne]
    by_cases hres : c.status = CStatus.RESOLVED
    · rw [if_pos hres]
    · rw [if_neg hres]
  · intro hres hne
    rw [updateComplaintStatus.eq_def, if_neg (by rw [hres]; exact fun h => hne h.symm),
      if_pos hres]
  · intro c2 hinv hok
    by_cases hsame : c.status = newStatus
    · rw [updateComplaintStatus.eq_def, if_pos hsame] at hok
      have hc : c2 = c := (Except.ok.inj hok).symm
      subst hc
      refine ⟨hinv, ?_, ?_⟩
      · intro hnotres hres
        exact absurd (hsame.trans hres) hnotres
      · intro hnotres
        by_cases hr : c2.resolvedAt = none
        · exact hr
        · exact absurd (hinv.mp hr) hnotres
    · by_cases hres : c.status = CStatus.RESOLVED
      · rw [updateComplaintStatus.eq_def, if_neg hsame, if_pos hres] at hok
        exact absurd hok (by simp)
      · rw [updateComplaintStatus.eq_def, if_neg hsame, if_neg hres] at hok
        cases newStatus with
        | OPEN => exact absurd hok (by simp)
        | IN_PROGRESS =>
            have hc : c2 = ⟨CStatus.IN_PROGRESS, none⟩ := (Except.ok.inj hok).symm
            subst hc
            refine ⟨by simp [complaintInvariant], ?_, fun _ => rfl⟩
            intro _ hcontra
            exact absurd hcontra (by simp)
        | RESOLVED =>
            have hc : c2 = ⟨CStatus.RESOLVED, some now⟩ := (Except.ok.inj hok).symm
            subst hc
            refine ⟨by simp [complaintInvariant], fun _ _ => rfl, ?_⟩
            intro hcontra
            exact absurd rfl hcontra
  · rw [updateComplaintStatus.eq_def, if_pos rfl]

/-- C7 witness: resolving an OPEN complaint at time 7 succeeds and stamps
`resolvedAt = some 7`; a subsequent transition back to OPEN is rejected with
Conflict; re-submitting RESOLVED on the resolved complaint is a no-op
success. -/
theorem updateComplaintStatus_machine_witness :
    updateComplaintStatus ⟨CStatus.OPEN, none⟩ CStatus.RESOLVED 7 =
      Except.ok ⟨CStatus.RESOLVED, some 7⟩ ∧
    updateComplaintStatus ⟨CStatus.RESOLVED, some 7⟩ CStatus.OPEN 9 =
      Except.error OpError.Conflict ∧
    updateComplaintStatus ⟨CStatus.RESOLVED, some 7⟩ CStatus.RESOLVED 9 =
      Except.ok ⟨CStatus.RESOLVED, some 7⟩ := by
  refine ⟨rfl, ?_, ?_⟩
  · exact (updateComplaintStatus_machine ⟨CStatus.RESOLVED, some 7⟩ CStatus.OPEN 9).1
      (by decide) rfl
  · exact (updateComplaintStatus_machine ⟨CStatus.RESOLVED, some 7⟩ CStatus.RESOLVED 9).2.2.2

/-! ### Bed number transform (`transformBed`, api.ts data-transform lines 466-474)

`transformBed` computes `number: parseInt(backendBed.number || backendBed.label) || 1`.
`jsParseInt` below models the ECMAScript `parseInt(string)` with no radix
argument: skip leading whitespace, read an optional sign, use radix 16 when
the remainder starts with `0x`/`0X` and radix 10 otherwise, take the longest
prefix of valid digits, and return NaN (`none`) when that prefix is empty. -/

/-- Whitespace characters `parseInt` skips (space, tab, LF, CR). -/
def isJsWhitespace (c : Char) : Bool :=
  c.toNat = 32 || c.toNat = 9 || c.toNat = 10 || c.toNat = 13

/-- Decimal digit 0-9. -/
def jsDigit (c : Char) : Bool :=
  48 ≤ c.toNat && c.toNat ≤ 57

/-- Hexadecimal digit 0-9 / a-f / A-F and its value. -/
def jsHexVal (c : Char) : Option Nat :=
  if 48 ≤ c.toNat && c.toNat ≤ 57 then some (c.toNat - 48)
  else if 97 ≤ c.toNat && c.toNat ≤ 102 then some (c.toNat - 87)
  else if 65 ≤ c.toNat && c.toNat ≤ 70 then some (c.toNat - 55)
  else none

/-- Drop leading whitespace. -/
def skipWs : List Char → List Char
  | [] => []
  | c :: cs => if isJsWhitespace c then skipWs cs else c :: cs

/-- Value of a decimal digit run. -/
def decDigitsVal (ds : List Char) : Nat :=
  ds.foldl (fun acc c => acc * 10 + (c.toNat - 48)) 0

/-- Value of a hexadecimal digit run. -/
def hexDigitsVal (ds : List Char) : Nat :=
  ds.foldl (fun acc c => acc * 16 + ((jsHexVal c).getD 0)) 0

/-- Longest decimal-digit prefix interpreted with the sign, or `none` (NaN)
when the prefix is empty. -/
def parseDec (neg : Bool) (body : List Char) : Option Int :=
  match body.takeWhile jsDigit with
  | [] => none
  | ds => some (if neg then -(decDigitsVal ds : Int) else (decDigitsVal ds : Int))

/-- Model of `parseInt(s)` of ECMAScript with the radix argument undefined, returning
`none` for NaN. -/
def jsParseInt (s : String) : Option Int :=
  match skipWs s.toList with
  | [] => none
  | c :: rest =>
      let neg := c.toNat = 45
      let body := if c.toNat = 45 || c.toNat = 43 then rest else c :: rest
      match body with
      | z :: x :: tl =>
          if z.toNat = 48 && (x.toNat = 120 || x.toNat = 88) then
            match tl.takeWhile (fun c => (jsHexVal c).isSome) with
            | [] => none
            | ds => some (if neg then -(hexDigitsVal ds : Int) else (hexDigitsVal ds : Int))
          else parseDec neg body
      | _ => parseDec neg body

/-- The `number` field computed by `transformBed` (api.ts line 469):
`parseInt(backendBed.number || backendBed.label) || 1`. The first argument
is the bed's `number` field when present (`none` when the field is absent,
and an empty string is falsy so the label is used instead); `|| 1` maps both
NaN and 0 to 1. -/
def transformBedNumber (number : Option String) (label : String) : Int :=
  let s :=
    match number with
    | some t => if t.isEmpty then label else t
    | none => label
  match jsParseInt s with
  | none => 1
  | some n => if n = 0 then 1 else n

theorem jsParseInt_single_letter (c : Char) (h1 : 65 ≤ c.toNat) (h2 : c.toNat ≤ 90) :
    jsParseInt (String.mk [c]) = none := by
  have hw : isJsWhitespace c = false := by
    simp only [isJsWhitespace, Bool.or_eq_false_iff, decide_eq_false_iff_not]
    omega
  have hd : jsDigit c = false := by
    simp only [jsDigit, Bool.and_eq_false_iff, decide_eq_false_iff_not]
    omega
  have hsign : (c.toNat = 45 || c.toNat = 43) = false := by
    simp only [Bool.or_eq_false_iff, decide_eq_false_iff_not]
    omega
  have hlist : (String.mk [c]).toList = [c] := rfl
  rw [jsParseInt, hlist, skipWs, if_neg (by rw [hw]; exact Bool.false_ne_true)]
  simp only [hsign, Bool.false_eq_true, if_false]
  rw [parseDec]
  simp [List.takeWhile, hd]

/-- C10: for every bed whose effective number string — the `number` field
when present and non-empty, else the `label` — is a single uppercase letter
(char codes 65-90, i.e. 'A', 'B', 'C', ...), `transformBed` assigns
`number = 1`: `parseInt` of a letter is NaN and `|| 1` makes it 1, whatever
the bed's label or position. -/
theorem transformBed_letter_is_one (c : Char) (label : String)
    (h1 : 65 ≤ c.toNat) (h2 : c.toNat ≤ 90) :
    transformBedNumber none (String.mk [c]) = 1 ∧
    transformBedNumber (some (String.mk [c])) label = 1 := by
  have hp := jsParseInt_single_letter c h1 h2
  have hne : (String.mk [c]).isEmpty = false := by
    rw [Bool.eq_false_iff]
    intro hcontra
    have h3 : String.mk [c] = "" := (String.isEmpty_iff (String.mk [c])).mp hcontra
    have h4 := congrArg String.data h3
    simp at h4
  constructor
  · rw [transformBedNumber]
    simp only [hp]
  · rw [transformBedNumber]
    simp only [hne, Bool.false_eq_true, if_false, hp]

/-- C10 witness: beds labeled 'A' and 'B' both get bed number 1 from
`transformBed`, whether the letter arrives in the `number` field or as the
`label`. -/
theorem transformBed_letter_is_one_witness :
    (65 ≤ ('A' : Char).toNat ∧ ('A' : Char).toNat ≤ 90 ∧
      transformBedNumber none (String.mk ['A']) = 1 ∧
      transformBedNumber (some (String.mk ['A'])) "A" = 1) ∧
    transformBedNumber none (String.mk ['B']) = 1 := by
  refine ⟨⟨by decide, by decide, ?_⟩, ?_⟩
  · exact (transformBed_letter_is_one 'A' "A" (by decide) (by decide)).1.symm ▸
      ⟨(transformBed_letter_is_one 'A' "A" (by decide) (by decide)).1,
       (transformBed_letter_is_one 'A' "A" (by decide) (by decide)).2⟩
  · exact (transformBed_letter_is_one 'B' "x" (by decide) (by decide)).1

end Hostel
